import Mathlib

/-!
Verification of the billing subsystem of a hospital back-office backend.

The development shallowly embeds the billing code:
* the Financial Calculator (the totals math of the two invoice-rendering
  paths: the HTML/puppeteer path's `calculate*ForPDF` helpers and the
  PDFKit path's `drawTotalsSectionOptimized`),
* the Document Composer's table width shrink loop (`drawBillingTable`) and
  cell text truncation (`truncateText`),
* the Report Merger (`mergePDFs` / `mergeInvoiceWithLabReports`),
* the Charge Ledger (bill item routes, `ensureMedicationBillItems`,
  `ensureLabReportBillItems`, the comprehensive-invoice route, and the
  item collection of the document-generation routes).

JavaScript numbers are modelled as rationals; `x || y` on numbers follows
JavaScript truthiness (`0`, `null` and `undefined` fall through to `y`),
modelled by `jsOrQ` on `Option ℚ`; `x || y` on strings treats the empty
string as falsy (`jsOrS`). Database row ids are modelled as naturals;
store-assigned ids of freshly inserted rows are modelled as `0` (no
property below inspects them).
-/

namespace Billing

/-- JavaScript `Number(x || y)` for a possibly-missing numeric `x`:
`0`, `null` and `undefined` are falsy and fall through to `y`. -/
def jsOrQ (x : Option ℚ) (y : ℚ) : ℚ :=
  match x with
  | some v => if v = 0 then y else v
  | none => y

/-- JavaScript `x || y` for a possibly-missing string `x`: the empty
string, `null` and `undefined` are falsy and fall through to `y`. -/
def jsOrS (x : Option String) (y : String) : String :=
  match x with
  | some s => if s = "" then y else s
  | none => y

/-- The invoice fields read by the totals computations of both rendering
paths (`generateInvoiceHTML`'s calculators and
`drawTotalsSectionOptimized`). Optional fields model columns that may be
`null`/absent on the record. -/
structure PdfInvoice where
  total_amount : Option ℚ
  gst_amount : Option ℚ
  discount_type : Option String
  discount_value : Option ℚ
  amount_payable : Option ℚ
  amount_paid : Option ℚ
  balance : Option ℚ
  include_gst : Bool
deriving Repr, DecidableEq

/-- `calculateDiscountAmountForPDF` from `generateInvoiceHTML`:
percentage discounts take `base × value/100`, fixed discounts are clamped
to the base amount by `Math.min`, anything else gives `0`. -/
def calculateDiscountAmountForPDF (invoice : PdfInvoice) : ℚ :=
  let baseAmount := jsOrQ invoice.total_amount 0
  let discountType := jsOrS invoice.discount_type "none"
  let discountValue := jsOrQ invoice.discount_value 0
  if discountType = "percentage" ∧ discountValue > 0 then
    baseAmount * (discountValue / 100)
  else if discountType = "fixed" ∧ discountValue > 0 then
    min discountValue baseAmount
  else 0

/-- `calculateDiscountedTotalForPDF` from `generateInvoiceHTML`. -/
def calculateDiscountedTotalForPDF (invoice : PdfInvoice) : ℚ :=
  jsOrQ invoice.total_amount 0 - calculateDiscountAmountForPDF invoice

/-- `calculateGSTAmountForPDF` from `generateInvoiceHTML`: 18% GST on
the *discounted* total, `0` when GST is not included. -/
def calculateGSTAmountForPDF (invoice : PdfInvoice) : ℚ :=
  if !invoice.include_gst then 0
  else calculateDiscountedTotalForPDF invoice * (18 / 100)

/-- `calculateTotalWithGSTForPDF` from `generateInvoiceHTML`. -/
def calculateTotalWithGSTForPDF (invoice : PdfInvoice) : ℚ :=
  let discountedTotal := calculateDiscountedTotalForPDF invoice
  if invoice.include_gst then discountedTotal + calculateGSTAmountForPDF invoice
  else discountedTotal

/-- A bill item as seen by the PDFKit composer: stored rows carry
`total_price`; the synthetic room-charge row built by the
`/:id/pdf` route carries `amount` instead. -/
structure ComposedItem where
  item_name : String
  item_type : Option String
  item_description : Option String
  description : Option String
  quantity : Option ℚ
  unit_price : Option ℚ
  total_price : Option ℚ
  amount : Option ℚ
  reference_id : Option Nat
deriving Repr, DecidableEq

/-- The rows of the PDFKit totals panel. -/
structure TotalsPanel where
  subtotal : ℚ
  gst : ℚ
  discountAmount : ℚ
  payable : ℚ
  amountPaid : ℚ
  balance : ℚ
deriving Repr, DecidableEq

/-- The numeric core of `drawTotalsSectionOptimized` (pdf-generator.ts):
the subtotal falls back to the sum of `item.amount || item.total_price`
over the bill items, GST is 18% of that (raw) subtotal, the discount is
not clamped for fixed discounts, and
`payable = subtotal + gst − discountAmount`. -/
def drawTotalsSectionOptimized (invoice : PdfInvoice)
    (billItems : List ComposedItem) : TotalsPanel :=
  let calculatedSubtotal :=
    billItems.foldl (fun s i => s + jsOrQ i.amount (jsOrQ i.total_price 0)) 0
  let subtotal := jsOrQ invoice.total_amount (jsOrQ (some calculatedSubtotal) 0)
  let calculatedGst := subtotal * (18 / 100)
  let gst := jsOrQ invoice.gst_amount calculatedGst
  let discount := jsOrQ invoice.discount_value 0
  let discountType := jsOrS invoice.discount_type "fixed"
  let discountAmount :=
    if discountType = "percentage" then subtotal * (discount / 100) else discount
  let calculatedPayable := subtotal + gst - discountAmount
  let payable := jsOrQ invoice.amount_payable calculatedPayable
  let amountPaid := jsOrQ invoice.amount_paid 0
  let balance := jsOrQ invoice.balance (payable - amountPaid)
  ⟨subtotal, gst, discountAmount, payable, amountPaid, balance⟩

/-- The invoice of the spec's discount/tax law: subtotal 1000, 10%
percentage discount, 18% GST included, no precomputed totals columns. -/
def lawInvoiceC1 : PdfInvoice :=
  { total_amount := some 1000
    gst_amount := none
    discount_type := some "percentage"
    discount_value := some 10
    amount_payable := none
    amount_paid := none
    balance := none
    include_gst := true }

/-- The invoice of the spec's fixed-discount clamp example: subtotal 500,
fixed discount 800, no precomputed totals columns. -/
def clampInvoiceC4 : PdfInvoice :=
  { total_amount := some 500
    gst_amount := none
    discount_type := some "fixed"
    discount_value := some 800
    amount_payable := none
    amount_paid := none
    balance := none
    include_gst := true }

end Billing

namespace Billing

/-- C1: the claim says that on *every* document-generation path that
renders a totals panel, tax is computed on the discounted subtotal, so
that subtotal 1000 with a 10% discount and 18% tax yields payable 1062.
Counterexample: the PDFKit totals panel (`drawTotalsSectionOptimized`)
computes GST on the raw subtotal and subtracts the discount afterwards,
yielding payable 1080 ≠ 1062 for exactly those inputs. -/
theorem c1_counterexample_pdfkit_taxes_raw_subtotal :
    (drawTotalsSectionOptimized lawInvoiceC1 []).payable = 1080 ∧
    (1080 : ℚ) ≠ 1062 := by
  refine ⟨?_, by norm_num⟩
  simp [drawTotalsSectionOptimized, lawInvoiceC1, jsOrQ, jsOrS]
  norm_num

end Billing

namespace Billing

/-- C1 (amended): the HTML invoice-generation path
(`generateInvoiceHTML`'s calculators) applies the discount before tax and
computes 18% GST on the *discounted* subtotal — for subtotal 1000, a 10%
discount and 18% GST it yields discounted 900, tax 162 and payable 1062 —
but the PDFKit totals panel (`drawTotalsSectionOptimized`) instead
computes GST on the raw subtotal and subtracts the discount afterwards,
so `payable = subtotal + gst − discount` there, not 1062. -/
theorem c1_discount_before_tax_amended :
    (∀ inv : PdfInvoice, inv.include_gst = true →
      calculateGSTAmountForPDF inv
          = calculateDiscountedTotalForPDF inv * (18 / 100) ∧
      calculateTotalWithGSTForPDF inv
          = calculateDiscountedTotalForPDF inv + calculateGSTAmountForPDF inv) ∧
    (calculateDiscountedTotalForPDF lawInvoiceC1 = 900 ∧
      calculateGSTAmountForPDF lawInvoiceC1 = 162 ∧
      calculateTotalWithGSTForPDF lawInvoiceC1 = 1062) ∧
    (∀ (inv : PdfInvoice) (items : List ComposedItem),
      inv.gst_amount = none → inv.amount_payable = none →
      (drawTotalsSectionOptimized inv items).gst
          = (drawTotalsSectionOptimized inv items).subtotal * (18 / 100) ∧
      (drawTotalsSectionOptimized inv items).payable
          = (drawTotalsSectionOptimized inv items).subtotal
            + (drawTotalsSectionOptimized inv items).gst
            - (drawTotalsSectionOptimized inv items).discountAmount) := by
  refine ⟨?_, ?_, ?_⟩
  · intro inv h
    simp [calculateGSTAmountForPDF, calculateTotalWithGSTForPDF, h]
  · refine ⟨?_, ?_, ?_⟩ <;>
      · simp [calculateDiscountedTotalForPDF, calculateDiscountAmountForPDF,
          calculateGSTAmountForPDF, calculateTotalWithGSTForPDF,
          lawInvoiceC1, jsOrQ, jsOrS]
        try norm_num
  · intro inv items hg hp
    simp [drawTotalsSectionOptimized, hg, hp, jsOrQ]

/-- Witness for `c1_discount_before_tax_amended` at concrete inputs. -/
theorem c1_discount_before_tax_amended_witness :
    calculateGSTAmountForPDF lawInvoiceC1
        = calculateDiscountedTotalForPDF lawInvoiceC1 * (18 / 100) ∧
    (drawTotalsSectionOptimized lawInvoiceC1 []).payable
        = (drawTotalsSectionOptimized lawInvoiceC1 []).subtotal
          + (drawTotalsSectionOptimized lawInvoiceC1 []).gst
          - (drawTotalsSectionOptimized lawInvoiceC1 []).discountAmount :=
  ⟨(c1_discount_before_tax_amended.1 lawInvoiceC1 rfl).1,
    (c1_discount_before_tax_amended.2.2 lawInvoiceC1 [] rfl rfl).2⟩

/-- C4: the claim says *every* totals computation clamps a fixed discount
to `min(value, subtotal)`, so subtotal 500 with fixed discount 800 gives
discount 500 and a non-negative result. Counterexample: the PDFKit totals
panel applies the fixed discount unclamped: discount 800 ≠ 500 and
payable = 500 + 90 − 800 = −210 < 0. -/
theorem c4_counterexample_pdfkit_unclamped_fixed_discount :
    (drawTotalsSectionOptimized clampInvoiceC4 []).discountAmount = 800 ∧
    (800 : ℚ) ≠ 500 ∧
    (drawTotalsSectionOptimized clampInvoiceC4 []).payable = -210 ∧
    (-210 : ℚ) < 0 := by
  refine ⟨?_, by norm_num, ?_, by norm_num⟩ <;>
    · simp [drawTotalsSectionOptimized, clampInvoiceC4, jsOrQ, jsOrS]
      try norm_num

/-- C4 (amended): the HTML invoice-generation path clamps fixed discounts
to `min(value, subtotal)` — for subtotal 500 and fixed discount 800 it
yields discount 500 and discounted subtotal 0, and the discounted
subtotal is never negative for a non-negative subtotal — but the PDFKit
totals panel applies the stored fixed discount value unclamped. -/
theorem c4_fixed_discount_clamp_amended :
    (∀ inv : PdfInvoice,
      jsOrS inv.discount_type "none" = "fixed" →
      jsOrQ inv.discount_value 0 > 0 →
      calculateDiscountAmountForPDF inv
          = min (jsOrQ inv.discount_value 0) (jsOrQ inv.total_amount 0) ∧
      (0 ≤ jsOrQ inv.total_amount 0 → 0 ≤ calculateDiscountedTotalForPDF inv)) ∧
    (calculateDiscountAmountForPDF clampInvoiceC4 = 500 ∧
      calculateDiscountedTotalForPDF clampInvoiceC4 = 0) ∧
    (∀ (inv : PdfInvoice) (items : List ComposedItem),
      jsOrS inv.discount_type "fixed" ≠ "percentage" →
      (drawTotalsSectionOptimized inv items).discountAmount
          = jsOrQ inv.discount_value 0) := by
  refine ⟨?_, ?_, ?_⟩
  · intro inv ht hv
    have hne : ¬(jsOrS inv.discount_type "none" = "percentage" ∧
        jsOrQ inv.discount_value 0 > 0) := by
      rintro ⟨h1, -⟩
      rw [ht] at h1
      simp at h1
    constructor
    · simp [calculateDiscountAmountForPDF, hne, ht, hv]
    · intro hbase
      have hmin : min (jsOrQ inv.discount_value 0) (jsOrQ inv.total_amount 0)
          ≤ jsOrQ inv.total_amount 0 := min_le_right _ _
      simp only [calculateDiscountedTotalForPDF, calculateDiscountAmountForPDF,
        hne, if_false, ht, hv, and_true, sub_nonneg]
      simp only [eq_self_iff_true, if_true, if_pos]
      exact hmin
  · constructor <;>
      · simp [calculateDiscountAmountForPDF, calculateDiscountedTotalForPDF,
          clampInvoiceC4, jsOrQ, jsOrS]
        norm_num
  · intro inv items ht
    simp [drawTotalsSectionOptimized, ht]

/-- Witness for `c4_fixed_discount_clamp_amended` at concrete inputs. -/
theorem c4_fixed_discount_clamp_amended_witness :
    calculateDiscountAmountForPDF clampInvoiceC4
        = min (jsOrQ clampInvoiceC4.discount_value 0)
            (jsOrQ clampInvoiceC4.total_amount 0) ∧
    (drawTotalsSectionOptimized clampInvoiceC4 []).discountAmount
        = jsOrQ clampInvoiceC4.discount_value 0 :=
  ⟨(c4_fixed_discount_clamp_amended.1 clampInvoiceC4 (by simp [clampInvoiceC4, jsOrS])
      (by norm_num [clampInvoiceC4, jsOrQ])).1,
    c4_fixed_discount_clamp_amended.2.2 clampInvoiceC4 []
      (by simp [clampInvoiceC4, jsOrS])⟩

end Billing

namespace Billing

/-- The seven columns of `drawBillingTable`'s width configuration. -/
inductive ColKey
  | dateOnly
  | particulars
  | rate
  | qty
  | amount
  | gst
  | total
deriving Repr, DecidableEq

/-- The mutable `widthConfig` record of `drawBillingTable`. -/
structure WidthConfig where
  dateOnly : Nat
  particulars : Nat
  rate : Nat
  qty : Nat
  amount : Nat
  gst : Nat
  total : Nat
deriving Repr, DecidableEq

/-- Read one field of the width record (`widthConfig[key]`). -/
def getW (cfg : WidthConfig) : ColKey → Nat
  | .dateOnly => cfg.dateOnly
  | .particulars => cfg.particulars
  | .rate => cfg.rate
  | .qty => cfg.qty
  | .amount => cfg.amount
  | .gst => cfg.gst
  | .total => cfg.total

/-- Write one field of the width record (`widthConfig[key] = v`). -/
def setW (cfg : WidthConfig) : ColKey → Nat → WidthConfig
  | .dateOnly, v => { cfg with dateOnly := v }
  | .particulars, v => { cfg with particulars := v }
  | .rate, v => { cfg with rate := v }
  | .qty, v => { cfg with qty := v }
  | .amount, v => { cfg with amount := v }
  | .gst, v => { cfg with gst := v }
  | .total, v => { cfg with total := v }

/-- The `minWidths` record of `drawBillingTable`. -/
def minWidths : ColKey → Nat
  | .dateOnly => 70
  | .particulars => 140
  | .rate => 60
  | .qty => 30
  | .amount => 60
  | .gst => 60
  | .total => 60

/-- The `shrinkOrder` array of `drawBillingTable`; note it does not
contain `qty`. -/
def shrinkOrder : List ColKey :=
  [.particulars, .rate, .amount, .gst, .total, .dateOnly]

/-- Sum of all seven column widths. -/
def sumW (cfg : WidthConfig) : Nat :=
  cfg.dateOnly + cfg.particulars + cfg.rate + cfg.qty + cfg.amount
    + cfg.gst + cfg.total

/-- One pass of the inner `for (const key of shrinkOrder)` loop of
`drawBillingTable`: before each key, stop if the running total already
fits; otherwise decrement the key's width by one when it is above its
minimum. Returns the updated record, the updated running total and the
`adjusted` flag. -/
def sweep (cfg : WidthConfig) (totalWidth contentWidth : Nat) :
    List ColKey → WidthConfig × Nat × Bool
  | [] => (cfg, totalWidth, false)
  | k :: ks =>
    if totalWidth ≤ contentWidth then (cfg, totalWidth, false)
    else if minWidths k < getW cfg k then
      let next := sweep (setW cfg k (getW cfg k - 1)) (totalWidth - 1)
        contentWidth ks
      (next.1, next.2.1, true)
    else sweep cfg totalWidth contentWidth ks

/-- The `while (totalWidth > contentWidth)` loop of `drawBillingTable`,
with an explicit fuel argument standing for the loop's iteration count
(the loop itself manages no fuel; `fitLoopAux_fuel_irrel` below shows any
fuel above `totalWidth` gives the same result, i.e. the loop
terminates). -/
def fitLoopAux : Nat → WidthConfig → Nat → Nat → WidthConfig
  | 0, cfg, _, _ => cfg
  | fuel + 1, cfg, totalWidth, contentWidth =>
    if totalWidth ≤ contentWidth then cfg
    else
      match sweep cfg totalWidth contentWidth shrinkOrder with
      | (cfg', total', true) => fitLoopAux fuel cfg' total' contentWidth
      | (cfg', _, false) => cfg'

/-- The shrink loop of `drawBillingTable`. -/
def fitLoop (cfg : WidthConfig) (totalWidth contentWidth : Nat) : WidthConfig :=
  fitLoopAux (totalWidth + 1) cfg totalWidth contentWidth

/-- The column widths `drawBillingTable` computes for a given content
width: declared widths with
`particulars = max(minWidths.particulars, contentWidth − staticSum)`,
then the shrink loop. -/
def drawBillingTableWidths (contentWidth : Nat) : WidthConfig :=
  let base : WidthConfig :=
    { dateOnly := 90, particulars := 0, rate := 70, qty := 35,
      amount := 70, gst := 70, total := 70 }
  let staticSum := base.dateOnly + base.rate + base.qty + base.amount
    + base.gst + base.total
  let particulars := max (minWidths .particulars) (contentWidth - staticSum)
  fitLoop { base with particulars := particulars }
    (staticSum + particulars) contentWidth

/-- The first column in the given order whose width exceeds its minimum,
as the claim's algorithm selects it. -/
def firstShrinkable (cfg : WidthConfig) : List ColKey → Option ColKey
  | [] => none
  | k :: ks =>
    if minWidths k < getW cfg k then some k else firstShrinkable cfg ks

/-- The shrink algorithm as the claim words it (refinement comparison
target, not code of the repository): repeatedly decrement, in shrink
priority order, the *first* column above its minimum by one unit,
recompute the sum, stop when the sum fits or nothing can shrink. -/
def fitColumnsClaimedAux : Nat → WidthConfig → Nat → Nat → WidthConfig
  | 0, cfg, _, _ => cfg
  | fuel + 1, cfg, totalWidth, contentWidth =>
    if totalWidth ≤ contentWidth then cfg
    else
      match firstShrinkable cfg shrinkOrder with
      | none => cfg
      | some k =>
        fitColumnsClaimedAux fuel (setW cfg k (getW cfg k - 1))
          (totalWidth - 1) contentWidth

/-- `drawBillingTableWidths` with the claim's shrink algorithm in place
of the code's sweep loop. -/
def drawBillingTableWidthsClaimed (contentWidth : Nat) : WidthConfig :=
  let base : WidthConfig :=
    { dateOnly := 90, particulars := 0, rate := 70, qty := 35,
      amount := 70, gst := 70, total := 70 }
  let staticSum := base.dateOnly + base.rate + base.qty + base.amount
    + base.gst + base.total
  let particulars := max (minWidths .particulars) (contentWidth - staticSum)
  fitColumnsClaimedAux (staticSum + particulars + 1)
    { base with particulars := particulars }
    (staticSum + particulars) contentWidth

end Billing

namespace Billing

theorem getW_setW_self (cfg : WidthConfig) (k : ColKey) (v : Nat) :
    getW (setW cfg k v) k = v := by
  cases k <;> rfl

theorem getW_setW_ne (cfg : WidthConfig) {k k' : ColKey} (h : k' ≠ k) (v : Nat) :
    getW (setW cfg k v) k' = getW cfg k' := by
  cases k <;> cases k' <;> simp_all [getW, setW]

theorem sumW_setW_dec (cfg : WidthConfig) (k : ColKey)
    (h : minWidths k < getW cfg k) :
    sumW (setW cfg k (getW cfg k - 1)) = sumW cfg - 1 := by
  have h1 : 1 ≤ getW cfg k := le_trans (Nat.succ_le_succ (Nat.zero_le _)) h
  cases k <;> simp [sumW, setW, getW] at * <;> omega

theorem qty_setW (cfg : WidthConfig) {k : ColKey} (h : k ≠ ColKey.qty) (v : Nat) :
    (setW cfg k v).qty = cfg.qty := by
  cases k <;> simp_all [setW]

theorem sweep_total_le (ks : List ColKey) :
    ∀ (cfg : WidthConfig) (t W : Nat), (sweep cfg t W ks).2.1 ≤ t := by
  induction ks with
  | nil => intro cfg t W; simp [sweep]
  | cons k ks ih =>
    intro cfg t W
    simp only [sweep]
    split
    · exact le_refl t
    · split
      · exact le_trans (ih _ _ _) (Nat.sub_le t 1)
      · exact ih _ _ _

theorem sweep_flag_lt (ks : List ColKey) :
    ∀ (cfg : WidthConfig) (t W : Nat),
    (sweep cfg t W ks).2.2 = true → (sweep cfg t W ks).2.1 < t := by
  induction ks with
  | nil => intro cfg t W h; simp [sweep] at h
  | cons k ks ih =>
    intro cfg t W
    simp only [sweep]
    split
    · intro h; simp at h
    · rename_i hguard
      have ht : 1 ≤ t := by omega
      split
      · intro _
        exact lt_of_le_of_lt (le_trans (sweep_total_le ks _ _ _) (le_refl _))
          (by omega)
      · exact ih _ _ _

theorem sweep_sum (ks : List ColKey) :
    ∀ (cfg : WidthConfig) (t W : Nat), sumW cfg = t →
    sumW (sweep cfg t W ks).1 = (sweep cfg t W ks).2.1 := by
  induction ks with
  | nil => intro cfg t W h; simpa [sweep] using h
  | cons k ks ih =>
    intro cfg t W h
    simp only [sweep]
    split
    · exact h
    · split
      · rename_i hdec
        exact ih _ _ _ (by rw [sumW_setW_dec cfg k hdec, h])
      · exact ih _ _ _ h

theorem sweep_min_le (ks : List ColKey) :
    ∀ (cfg : WidthConfig) (t W : Nat),
    (∀ k, minWidths k ≤ getW cfg k) →
    ∀ k, minWidths k ≤ getW (sweep cfg t W ks).1 k := by
  induction ks with
  | nil => intro cfg t W h k; simpa [sweep] using h k
  | cons k ks ih =>
    intro cfg t W h k'
    simp only [sweep]
    split
    · exact h k'
    · split
      · rename_i hdec
        refine ih _ _ _ ?_ k'
        intro j
        by_cases hj : j = k
        · subst hj; rw [getW_setW_self]; omega
        · rw [getW_setW_ne _ hj]; exact h j
      · exact ih _ _ _ h k'

theorem sweep_qty (ks : List ColKey) :
    ∀ (cfg : WidthConfig) (t W : Nat), ColKey.qty ∉ ks →
    (sweep cfg t W ks).1.qty = cfg.qty := by
  induction ks with
  | nil => intro cfg t W _; simp [sweep]
  | cons k ks ih =>
    intro cfg t W h
    have hk : k ≠ ColKey.qty := fun he => h (he ▸ List.mem_cons_self k ks)
    have hks : ColKey.qty ∉ ks := fun hm => h (List.mem_cons_of_mem k hm)
    simp only [sweep]
    split
    · rfl
    · split
      · rw [ih _ _ _ hks, qty_setW cfg hk]
      · exact ih _ _ _ hks

theorem sweep_flag_false (ks : List ColKey) :
    ∀ (cfg : WidthConfig) (t W : Nat),
    (sweep cfg t W ks).2.2 = false →
    (sweep cfg t W ks).1 = cfg ∧ (sweep cfg t W ks).2.1 = t ∧
    (t ≤ W ∨ ∀ k ∈ ks, getW cfg k ≤ minWidths k) := by
  induction ks with
  | nil => intro cfg t W _; exact ⟨rfl, rfl, Or.inr (by simp)⟩
  | cons k ks ih =>
    intro cfg t W
    simp only [sweep]
    split
    · rename_i hguard
      intro _
      exact ⟨rfl, rfl, Or.inl hguard⟩
    · rename_i hguard
      split
      · intro h; simp at h
      · rename_i hnodec
        intro h
        obtain ⟨h1, h2, h3⟩ := ih _ _ _ h
        refine ⟨h1, h2, Or.inr ?_⟩
        intro j hj
        rcases List.mem_cons.mp hj with hj | hj
        · subst hj; omega
        · rcases h3 with h3 | h3
          · exact absurd h3 hguard
          · exact h3 j hj

end Billing

namespace Billing

theorem fitLoopAux_spec :
    ∀ (fuel : Nat) (cfg : WidthConfig) (t W : Nat), t < fuel → sumW cfg = t →
    (∀ k, minWidths k ≤ getW cfg k) →
    (∀ k, minWidths k ≤ getW (fitLoopAux fuel cfg t W) k) ∧
    (fitLoopAux fuel cfg t W).qty = cfg.qty ∧
    (sumW (fitLoopAux fuel cfg t W) ≤ W ∨
      ∀ k ∈ shrinkOrder, getW (fitLoopAux fuel cfg t W) k = minWidths k) := by
  intro fuel
  induction fuel with
  | zero => intro cfg t W h; omega
  | succ fuel ih =>
    intro cfg t W hf hsum hmin
    by_cases hguard : t ≤ W
    · have hout : fitLoopAux (fuel + 1) cfg t W = cfg := by
        simp [fitLoopAux, hguard]
      rw [hout]
      exact ⟨hmin, rfl, Or.inl (hsum ▸ hguard)⟩
    · rcases hsw : sweep cfg t W shrinkOrder with ⟨cfg', t', flag⟩
      cases flag
      · have hff := sweep_flag_false shrinkOrder cfg t W (by rw [hsw])
        rw [hsw] at hff
        simp only at hff
        obtain ⟨h1, h2, h3⟩ := hff
        simp only [fitLoopAux, if_neg hguard, hsw]
        subst h1
        refine ⟨hmin, rfl, Or.inr ?_⟩
        intro j hj
        rcases h3 with h3 | h3
        · exact absurd h3 hguard
        · exact le_antisymm (h3 j hj) (hmin j)
      · have hlt : t' < t := by
          have h := sweep_flag_lt shrinkOrder cfg t W (by rw [hsw])
          rw [hsw] at h; simpa using h
        have hsum' : sumW cfg' = t' := by
          have h := sweep_sum shrinkOrder cfg t W hsum
          rw [hsw] at h; simpa using h
        have hmin' : ∀ k, minWidths k ≤ getW cfg' k := by
          have h := sweep_min_le shrinkOrder cfg t W hmin
          rw [hsw] at h; simpa using h
        have hqty : cfg'.qty = cfg.qty := by
          have h := sweep_qty shrinkOrder cfg t W (by decide)
          rw [hsw] at h; simpa using h
        simp only [fitLoopAux, if_neg hguard, hsw]
        have hrec := ih cfg' t' W (by omega) hsum' hmin'
        exact ⟨hrec.1, hrec.2.1.trans hqty, hrec.2.2⟩

theorem fitLoopAux_fuel_irrel :
    ∀ (t : Nat) (fuel : Nat) (cfg : WidthConfig) (W : Nat), t < fuel →
    fitLoopAux fuel cfg t W = fitLoopAux (t + 1) cfg t W := by
  intro t
  induction t using Nat.strong_induction_on with
  | _ t ih =>
    intro fuel cfg W hf
    match fuel, hf with
    | fuel + 1, hf =>
      by_cases hguard : t ≤ W
      · simp only [fitLoopAux, if_pos hguard]
      · rcases hsw : sweep cfg t W shrinkOrder with ⟨cfg', t', flag⟩
        cases flag
        · simp only [fitLoopAux, if_neg hguard, hsw]
        · have hlt : t' < t := by
            have h := sweep_flag_lt shrinkOrder cfg t W (by rw [hsw])
            rw [hsw] at h; simpa using h
          have h1 := ih t' hlt fuel cfg' W (by omega)
          have h2 := ih t' hlt t cfg' W hlt
          simp only [fitLoopAux, if_neg hguard, hsw, h1, h2]

end Billing

namespace Billing

/-- C6: the claim says that when the available width is below the sum of
the minimum widths (70+140+60+30+60+60+60 = 480), the shrink loop ends
with *every* column at its minimum. Counterexample: at content width 479
the Qty column — absent from `shrinkOrder` — ends at its declared width
35, not its minimum 30. -/
theorem c6_counterexample_qty_never_shrinks :
    479 < minWidths ColKey.dateOnly + minWidths ColKey.particulars
      + minWidths ColKey.rate + minWidths ColKey.qty + minWidths ColKey.amount
      + minWidths ColKey.gst + minWidths ColKey.total ∧
    (drawBillingTableWidths 479).qty = 35 ∧
    minWidths ColKey.qty = 30 ∧ (35 : Nat) ≠ 30 := by
  refine ⟨by decide, ?_, by decide, by decide⟩
  decide

/-- C6 (amended): for every content width below 480 the shrink loop
terminates with every column *of the shrink priority order* exactly at
its minimum; the Qty column is not in the shrink order and keeps its
declared width 35. Termination is witnessed by fuel-irrelevance: any
iteration bound above the running total gives the same result, i.e. the
`while` loop exits on its own. -/
theorem c6_shrink_floor_amended :
    (∀ W : Nat, W < 480 →
      (∀ k ∈ shrinkOrder, getW (drawBillingTableWidths W) k = minWidths k) ∧
      (drawBillingTableWidths W).qty = 35) ∧
    (∀ (fuel : Nat) (cfg : WidthConfig) (t W : Nat), t < fuel →
      fitLoopAux fuel cfg t W = fitLoop cfg t W) := by
  constructor
  · intro W hW
    have hd : drawBillingTableWidths W =
        fitLoopAux (405 + max 140 (W - 405) + 1)
          ⟨90, max 140 (W - 405), 70, 35, 70, 70, 70⟩
          (405 + max 140 (W - 405)) W := rfl
    have hspec := fitLoopAux_spec (405 + max 140 (W - 405) + 1)
      ⟨90, max 140 (W - 405), 70, 35, 70, 70, 70⟩
      (405 + max 140 (W - 405)) W (by omega)
      (by simp [sumW]; omega)
      (by
        intro k
        cases k <;> simp [minWidths, getW])
    rcases hspec with ⟨hmins, hqty, hstop⟩
    have hq35 : (fitLoopAux (405 + max 140 (W - 405) + 1)
        ⟨90, max 140 (W - 405), 70, 35, 70, 70, 70⟩
        (405 + max 140 (W - 405)) W).qty = 35 := hqty
    rw [hd]
    rcases hstop with hle | hall
    · exfalso
      have h1 := hmins ColKey.dateOnly
      have h2 := hmins ColKey.particulars
      have h3 := hmins ColKey.rate
      have h4 := hmins ColKey.amount
      have h5 := hmins ColKey.gst
      have h6 := hmins ColKey.total
      simp only [getW, minWidths] at h1 h2 h3 h4 h5 h6
      simp only [sumW] at hle
      omega
    · exact ⟨hall, hq35⟩
  · intro fuel cfg t W h
    exact fitLoopAux_fuel_irrel t fuel cfg W h

/-- Witness for `c6_shrink_floor_amended` at content width 479 and a
concrete loop state. -/
theorem c6_shrink_floor_amended_witness :
    (drawBillingTableWidths 479).qty = 35 ∧
    fitLoopAux 1000 ⟨90, 140, 70, 35, 70, 70, 70⟩ 545 400
        = fitLoop ⟨90, 140, 70, 35, 70, 70, 70⟩ 545 400 :=
  ⟨(c6_shrink_floor_amended.1 479 (by norm_num)).2,
    c6_shrink_floor_amended.2 1000 ⟨90, 140, 70, 35, 70, 70, 70⟩ 545 400
      (by norm_num)⟩

/-- C7: the claim says the shrink phase repeatedly decrements the *first*
column (in shrink priority order) above its minimum. Counterexample: at
content width 540 the code's sweep loop spreads the 5-unit deficit over
rate, amount, gst, total and dateOnly (one unit each), while the claimed
algorithm would take all 5 units from the rate column (particulars is
already at its minimum); the resulting layouts differ. -/
theorem c7_counterexample_round_robin_not_first_column :
    (drawBillingTableWidths 540).rate = 69 ∧
    (drawBillingTableWidthsClaimed 540).rate = 65 ∧
    drawBillingTableWidths 540 ≠ drawBillingTableWidthsClaimed 540 := by
  refine ⟨?_, ?_, ?_⟩ <;> decide

/-- C7 (amended): if the declared widths sum to at most the available
content width, the columns are rendered as declared (for `W ≥ 545` the
particulars column absorbs the slack and the sum equals `W`); otherwise
the loop sweeps the shrink priority order, decrementing *each* column
above its minimum by one unit per sweep and re-checking the sum before
each decrement, stopping when the sum fits or a sweep changes nothing —
so the final layout has either a fitting sum or every shrink-order
column at its minimum, and no column ever drops below its minimum. -/
theorem c7_layout_algorithm_amended :
    (∀ W : Nat, 545 ≤ W → drawBillingTableWidths W =
      { dateOnly := 90, particulars := W - 405, rate := 70, qty := 35,
        amount := 70, gst := 70, total := 70 }) ∧
    (∀ W : Nat, sumW (drawBillingTableWidths W) ≤ W ∨
      ∀ k ∈ shrinkOrder, getW (drawBillingTableWidths W) k = minWidths k) ∧
    (∀ (W : Nat) (k : ColKey),
      minWidths k ≤ getW (drawBillingTableWidths W) k) := by
  have hd : ∀ W : Nat, drawBillingTableWidths W =
      fitLoopAux (405 + max 140 (W - 405) + 1)
        ⟨90, max 140 (W - 405), 70, 35, 70, 70, 70⟩
        (405 + max 140 (W - 405)) W := fun W => rfl
  have hspec : ∀ W : Nat,
      (∀ k, minWidths k ≤ getW (drawBillingTableWidths W) k) ∧
      (drawBillingTableWidths W).qty = 35 ∧
      (sumW (drawBillingTableWidths W) ≤ W ∨
        ∀ k ∈ shrinkOrder, getW (drawBillingTableWidths W) k = minWidths k) := by
    intro W
    rw [hd]
    exact fitLoopAux_spec (405 + max 140 (W - 405) + 1)
      ⟨90, max 140 (W - 405), 70, 35, 70, 70, 70⟩
      (405 + max 140 (W - 405)) W (by omega)
      (by simp [sumW]; omega)
      (by
        intro k
        cases k <;> simp [minWidths, getW])
  refine ⟨?_, fun W => (hspec W).2.2, fun W k => (hspec W).1 k⟩
  intro W hW
  have hm : max 140 (W - 405) = W - 405 := Nat.max_eq_right (by omega)
  have ht : 405 + (W - 405) = W := by omega
  rw [hd, hm, ht]
  simp [fitLoopAux]

/-- Witness for `c7_layout_algorithm_amended` at content width 600. -/
theorem c7_layout_algorithm_amended_witness :
    drawBillingTableWidths 600 =
      { dateOnly := 90, particulars := 600 - 405, rate := 70, qty := 35,
        amount := 70, gst := 70, total := 70 } :=
  c7_layout_algorithm_amended.1 600 (by norm_num)

end Billing

namespace Billing

/-- The three-character ellipsis suffix appended by `truncateText`.
Rendered widths are modelled in character-width units: the width of a
string is its character count. -/
def ellipsisChars : List Char := ['.', '.', '.']

/-- The `while` loop of `truncateText` (pdf-generator.ts): drop the last
character while the candidate plus the ellipsis is too wide and the
candidate is nonempty. -/
def truncLoop (t : List Char) (maxWidth : Nat) : List Char :=
  if _h : maxWidth < t.length + ellipsisChars.length ∧ 0 < t.length then
    truncLoop t.dropLast maxWidth
  else t
termination_by t.length
decreasing_by
  simp only [List.length_dropLast]
  omega

/-- `truncateText` (pdf-generator.ts): text that fits is returned
unchanged; otherwise characters are dropped one at a time keeping the
3-character ellipsis suffix; if the loop empties the text, fall back to
the first 3 raw characters plus the ellipsis. -/
def truncateText (text : List Char) (maxWidth : Nat) : List Char :=
  if text.length ≤ maxWidth then text
  else if 0 < (truncLoop text maxWidth).length then
    truncLoop text maxWidth ++ ellipsisChars
  else text.take 3 ++ ellipsisChars

theorem truncLoop_spec (maxWidth : Nat) (hm : 4 ≤ maxWidth) :
    ∀ (n : Nat) (t : List Char), t.length ≤ n →
    (truncLoop t maxWidth).length + 3 ≤ maxWidth ∧
    (t ≠ [] → truncLoop t maxWidth ≠ []) := by
  intro n
  induction n with
  | zero =>
    intro t ht
    have ht0 : t = [] := List.eq_nil_of_length_eq_zero (by omega)
    subst ht0
    rw [truncLoop]
    simp [ellipsisChars]
    omega
  | succ n ih =>
    intro t ht
    rw [truncLoop]
    split
    · rename_i hcond
      have hlen2 : 2 ≤ t.length := by
        rcases hcond with ⟨h1, h2⟩
        simp [ellipsisChars] at h1
        omega
      have hdlen : t.dropLast.length = t.length - 1 := List.length_dropLast t
      have hrec := ih t.dropLast (by omega)
      refine ⟨hrec.1, fun _ => hrec.2 ?_⟩
      intro he
      rw [he] at hdlen
      simp at hdlen
      omega
    · rename_i hcond
      refine ⟨?_, id⟩
      rcases Nat.eq_zero_or_pos t.length with h0 | h0
      · omega
      · have h1 : ¬(maxWidth < t.length + ellipsisChars.length) :=
          fun hh => hcond ⟨hh, h0⟩
        simp [ellipsisChars] at h1
        omega

end Billing

namespace Billing

/-- C8: cell text truncation always produces fitting, non-empty output —
for every text and every column width of at least 4 character-widths the
returned text's width (character count) is at most the available width,
text that already fits is returned unchanged, and the result is never
empty for non-empty input. -/
theorem c8_truncation_always_fits (text : List Char) (maxWidth : Nat)
    (h : 4 ≤ maxWidth) :
    (truncateText text maxWidth).length ≤ maxWidth ∧
    (text ≠ [] → truncateText text maxWidth ≠ []) ∧
    (text.length ≤ maxWidth → truncateText text maxWidth = text) := by
  by_cases hfit : text.length ≤ maxWidth
  · have he : truncateText text maxWidth = text := by
      unfold truncateText
      rw [if_pos hfit]
    rw [he]
    exact ⟨hfit, id, fun _ => rfl⟩
  · have hspec := truncLoop_spec maxWidth h text.length text (le_refl _)
    have hne : text ≠ [] := by
      intro hee
      exact hfit (by rw [hee]; exact Nat.zero_le _)
    have hpos : 0 < (truncLoop text maxWidth).length :=
      List.length_pos.mpr (hspec.2 hne)
    have he : truncateText text maxWidth
        = truncLoop text maxWidth ++ ellipsisChars := by
      unfold truncateText
      rw [if_neg hfit, if_pos hpos]
    rw [he]
    refine ⟨?_, fun _ => by simp [ellipsisChars], fun hc => absurd hc hfit⟩
    have h3 : ellipsisChars.length = 3 := rfl
    rw [List.length_append, h3]
    omega

/-- Witness for `c8_truncation_always_fits` on a concrete 12-character
text and a 7-unit column. -/
theorem c8_truncation_always_fits_witness :
    (4 : Nat) ≤ 7 ∧
    (truncateText
        ['h', 'e', 'l', 'l', 'o', ' ', 'p', 'a', 't', 'i', 'e', 'n'] 7).length
      ≤ 7 :=
  ⟨by decide,
    (c8_truncation_always_fits
      ['h', 'e', 'l', 'l', 'o', ' ', 'p', 'a', 't', 'i', 'e', 'n'] 7
      (by decide)).1⟩

end Billing

namespace Billing

/-- A page of a document; documents are page lists. -/
abbrev Page := Nat

/-- `mergePDFs` (pdf-merger): copy every page of every buffer, in buffer
order, into one document. -/
def mergePDFs (pdfBuffers : List (List Page)) : List Page :=
  pdfBuffers.foldl (fun acc pdf => acc ++ pdf) []

/-- The download loop of `mergeInvoiceWithLabReports`: each location
either resolves to a document or fails (`none`); failures are logged and
skipped, successes are appended in list order. -/
def downloadAllLabReports (fetches : List (Option (List Page))) :
    List (List Page) :=
  fetches.filterMap id

/-- `mergeInvoiceWithLabReports` (pdf-merger): the primary invoice
document followed by every successfully fetched external document, in
the caller's list order. -/
def mergeInvoiceWithLabReports (invoicePdf : List Page)
    (fetches : List (Option (List Page))) : List Page :=
  mergePDFs (invoicePdf :: downloadAllLabReports fetches)

theorem foldl_append_init (bs : List (List Page)) :
    ∀ init : List Page,
    List.foldl (fun acc pdf => acc ++ pdf) init bs
      = init ++ List.foldl (fun acc pdf => acc ++ pdf) [] bs := by
  induction bs with
  | nil => intro init; simp
  | cons c cs ih =>
    intro init
    rw [List.foldl_cons, List.foldl_cons, ih (init ++ c), ih ([] ++ c)]
    simp [List.append_assoc]

theorem mergePDFs_cons (b : List Page) (bs : List (List Page)) :
    mergePDFs (b :: bs) = b ++ mergePDFs bs := by
  unfold mergePDFs
  rw [List.foldl_cons, foldl_append_init]
  simp

/-- C9: merging preserves caller order and degrades gracefully — for any
primary document and three external locations where the second fetch
fails, the merged output is the primary's pages, then document 1, then
document 3, with document 2 omitted; the merge function is total (no
error escapes a single failed fetch). -/
theorem c9_merge_order_and_graceful_degradation
    (invoicePdf doc1 doc3 : List Page) :
    mergeInvoiceWithLabReports invoicePdf [some doc1, none, some doc3]
      = invoicePdf ++ doc1 ++ doc3 ∧
    downloadAllLabReports [some doc1, none, some doc3] = [doc1, doc3] := by
  constructor
  · unfold mergeInvoiceWithLabReports downloadAllLabReports
    simp [mergePDFs_cons, mergePDFs, List.append_assoc]
  · simp [downloadAllLabReports]

end Billing

namespace Billing

/-- A persisted bill item row (`bill_items` table). Store-assigned row
ids of fresh inserts are modelled as `0`; no property below reads them. -/
structure BillItem where
  id : Nat
  invoice_id : Nat
  item_type : String
  item_name : String
  item_description : String
  quantity : ℚ
  unit_price : ℚ
  total_price : ℚ
  reference_id : Option Nat
deriving Repr, DecidableEq

/-- A persisted invoice row (`invoices` table), the fields the ledger
operations touch. -/
structure Invoice where
  id : Nat
  admission_id : Nat
  invoice_number : String
  total_amount : ℚ
  status : String
deriving Repr, DecidableEq

/-- A medication dosing aggregate (`patient_medications` table). -/
structure Medication where
  id : Nat
  admission_id : Nat
  name : String
  price_per_unit : Option ℚ
  units_per_dose : Option ℚ
  doses_administered : Option ℚ
deriving Repr, DecidableEq

/-- A lab report billing record (`lab_reports` table). -/
structure LabReport where
  id : Nat
  admission_id : Nat
  billing_status : String
  price : Option ℚ
  report_title : String
  labType : String
  report_description : String
deriving Repr, DecidableEq

/-- The backing store as the billing routes see it. -/
structure DB where
  invoices : List Invoice
  bill_items : List BillItem
  patient_medications : List Medication
  lab_reports : List LabReport
deriving Repr, DecidableEq

/-- `bill_items` rows of one invoice
(`.from('bill_items').select().eq('invoice_id', id)`). -/
def itemsOf (db : DB) (invoiceId : Nat) : List BillItem :=
  db.bill_items.filter (fun i => i.invoice_id == invoiceId)

/-- `reduce((sum, item) => sum + Number(item.total_price), 0)`. -/
def sumTotalPrice (items : List BillItem) : ℚ :=
  items.foldl (fun s i => s + i.total_price) 0

/-- `.from('invoices').update({ total_amount }).eq('id', invoiceId)`. -/
def setInvoiceTotal (db : DB) (invoiceId : Nat) (t : ℚ) : DB :=
  { db with
    invoices := db.invoices.map (fun inv =>
      if inv.id == invoiceId then { inv with total_amount := t } else inv) }

/-- `router.post('/:id/items')`: reject falsy `item_type`/`item_name`/
`unit_price`, insert the item with `total_price = quantity × unit_price`
(quantity defaulting to 1), then recompute the invoice total from all of
the invoice's current items. -/
def addBillItemRoute (db : DB) (invoiceId : Nat)
    (item_type item_name item_description : String)
    (quantity unit_price : Option ℚ) (reference_id : Option Nat) :
    Except String DB :=
  if item_type = "" ∨ item_name = "" ∨ unit_price = none ∨ unit_price = some 0
  then .error "item_type, item_name, and unit_price are required"
  else
    let q := quantity.getD 1
    let up := unit_price.getD 0
    let newItem : BillItem :=
      { id := 0, invoice_id := invoiceId, item_type, item_name,
        item_description, quantity := q, unit_price := up,
        total_price := q * up, reference_id }
    let db1 := { db with bill_items := db.bill_items ++ [newItem] }
    .ok (setInvoiceTotal db1 invoiceId (sumTotalPrice (itemsOf db1 invoiceId)))

/-- `router.put('/items/:itemId')`: patch the provided fields, recompute
`total_price` when quantity or unit price changed (falling back to the
stored values with JavaScript truthiness defaults `|| 1` and `|| 0`),
then recompute the owning invoice's total from its full item set. -/
def updateBillItemRoute (db : DB) (itemId : Nat)
    (item_name item_description : Option String)
    (quantity unit_price : Option ℚ) : Except String DB :=
  match db.bill_items.find? (fun i => i.id == itemId) with
  | none => .error "Bill item not found or update failed"
  | some current =>
    let newQuantity :=
      match quantity with
      | some q => q
      | none => jsOrQ (some current.quantity) 1
    let newUnitPrice :=
      match unit_price with
      | some p => p
      | none => jsOrQ (some current.unit_price) 0
    let updated : BillItem :=
      { current with
        item_name := item_name.getD current.item_name
        item_description := item_description.getD current.item_description
        quantity := quantity.getD current.quantity
        unit_price := unit_price.getD current.unit_price
        total_price :=
          if quantity.isSome ∨ unit_price.isSome then newQuantity * newUnitPrice
          else current.total_price }
    let db1 :=
      { db with
        bill_items := db.bill_items.map (fun i =>
          if i.id == itemId then updated else i) }
    .ok (setInvoiceTotal db1 current.invoice_id
      (sumTotalPrice (itemsOf db1 current.invoice_id)))

/-- `router.delete('/items/:itemId')`: delete the row, then recompute the
owning invoice's total from its remaining item set. -/
def deleteBillItemRoute (db : DB) (itemId : Nat) : Except String DB :=
  match db.bill_items.find? (fun i => i.id == itemId) with
  | none => .error "Bill item not found or deletion failed"
  | some deleted =>
    let db1 :=
      { db with bill_items := db.bill_items.filter (fun i => !(i.id == itemId)) }
    .ok (setInvoiceTotal db1 deleted.invoice_id
      (sumTotalPrice (itemsOf db1 deleted.invoice_id)))

end Billing

namespace Billing

/-- `item?.item_name?.toLowerCase?.().includes('med')`: the lowercased
name contains the substring `med` (a string contains `p` exactly when
splitting on `p` yields more than one piece). -/
def hasMedName (s : String) : Bool :=
  (s.toLower.splitOn "med").length > 1

/-- The `medicationRefs` set of `ensureMedicationBillItems`: reference
ids of current items that are medication-typed or whose name mentions
`med`. -/
def medicationRefs (currentItems : List BillItem) : List Nat :=
  (currentItems.filter (fun i =>
    i.item_type == "medication" || hasMedName i.item_name)).filterMap
    (fun i => i.reference_id)

/-- The line item `ensureMedicationBillItems` builds for one medication
aggregate: `charge = pricePerUnit × unitsPerDose × dosesAdministered`
(with `?? 0`, `?? 1`, `?? 0` defaults); charges ≤ 0 are skipped. -/
def medItemFromSource (invoiceId : Nat) (med : Medication) : Option BillItem :=
  let pricePerUnit := med.price_per_unit.getD 0
  let unitsPerDose := med.units_per_dose.getD 1
  let dosesGiven := med.doses_administered.getD 0
  let medTotal := pricePerUnit * unitsPerDose * dosesGiven
  if medTotal ≤ 0 then none
  else some
    { id := 0
      invoice_id := invoiceId
      item_type := "medication"
      item_name := if med.name = "" then "Medication Charge" else med.name
      item_description := "Medication administered - " ++ toString dosesGiven
        ++ (if dosesGiven == 1 then " dose" else " doses")
      quantity := dosesGiven
      unit_price := pricePerUnit * unitsPerDose
      total_price := medTotal
      reference_id := some med.id }

/-- The `newMedicationItems` list of `ensureMedicationBillItems`: the
admission's medication aggregates whose id is not yet referenced, mapped
to line items, positive charges only. -/
def newMedicationItems (db : DB) (invoiceId admissionId : Nat)
    (currentItems : List BillItem) : List BillItem :=
  ((db.patient_medications.filter (fun m => m.admission_id == admissionId)).filter
    (fun m => !((medicationRefs currentItems).contains m.id))).filterMap
    (medItemFromSource invoiceId)

/-- `ensureMedicationBillItems` (billing routes): resolve already-present
references, fetch the admission's medication aggregates (a failed fetch
returns the current items untouched), insert the missing items (a failed
insert returns the optimistic item list without touching the store), and
on success persist the recomputed invoice total over the full item
list. -/
def ensureMedicationBillItems (db : DB) (invoiceId admissionId : Nat)
    (currentItems : List BillItem) (fetchOk insertOk : Bool) :
    DB × List BillItem :=
  if !fetchOk then (db, currentItems)
  else
    let newItems := newMedicationItems db invoiceId admissionId currentItems
    if newItems.isEmpty then (db, currentItems)
    else if !insertOk then (db, currentItems ++ newItems)
    else
      let db1 := { db with bill_items := db.bill_items ++ newItems }
      let allItems := currentItems ++ newItems
      (setInvoiceTotal db1 invoiceId (sumTotalPrice allItems), allItems)

/-- The `labReportRefs` set of `ensureLabReportBillItems`: reference ids
of current lab-typed items. -/
def labReportRefs (currentItems : List BillItem) : List Nat :=
  (currentItems.filter (fun i => i.item_type == "lab")).filterMap
    (fun i => i.reference_id)

/-- The line item `ensureLabReportBillItems` builds for one billed lab
report: fixed catalog price, quantity 1; non-positive prices are
skipped. -/
def labItemFromSource (invoiceId : Nat) (report : LabReport) :
    Option BillItem :=
  let price := report.price.getD 0
  if price ≤ 0 then none
  else some
    { id := 0
      invoice_id := invoiceId
      item_type := "lab"
      item_name := jsOrS (some report.report_title)
        (jsOrS (some report.labType) "Lab Report")
      item_description :=
        if report.report_description = "" then "Lab test: " ++ report.labType
        else report.report_description
      quantity := 1
      unit_price := price
      total_price := price
      reference_id := some report.id }

/-- The `newLabReportItems` list of `ensureLabReportBillItems`: the
admission's `billed` lab reports whose id is not yet referenced, mapped
to line items, positive prices only. -/
def newLabReportItems (db : DB) (invoiceId admissionId : Nat)
    (currentItems : List BillItem) : List BillItem :=
  ((db.lab_reports.filter (fun r =>
    r.admission_id == admissionId && r.billing_status == "billed")).filter
    (fun r => !((labReportRefs currentItems).contains r.id))).filterMap
    (labItemFromSource invoiceId)

/-- `ensureLabReportBillItems` (billing routes): same pattern as the
medication sync, restricted to lab reports with billing status
`billed`. -/
def ensureLabReportBillItems (db : DB) (invoiceId admissionId : Nat)
    (currentItems : List BillItem) (fetchOk insertOk : Bool) :
    DB × List BillItem :=
  if !fetchOk then (db, currentItems)
  else
    let newItems := newLabReportItems db invoiceId admissionId currentItems
    if newItems.isEmpty then (db, currentItems)
    else if !insertOk then (db, currentItems ++ newItems)
    else
      let db1 := { db with bill_items := db.bill_items ++ newItems }
      let allItems := currentItems ++ newItems
      (setInvoiceTotal db1 invoiceId (sumTotalPrice allItems), allItems)

/-- `router.post('/comprehensive')` after charge collection (the
collected `invoiceItems` carry `totalAmount = Σ total_price` by
construction): reject a zero total before creating anything; create the
invoice; insert the bill items, and on item-insert failure delete the
just-created invoice before surfacing the error. The two `Bool`s model
success of the two store writes. -/
def comprehensiveInvoiceRoute (db : DB) (admissionId : Nat)
    (invoiceItems : List BillItem) (invoiceNumber : String)
    (newInvoiceId : Nat) (invoiceInsertOk itemsInsertOk : Bool) :
    DB × Except String Nat :=
  let totalAmount := sumTotalPrice invoiceItems
  if totalAmount = 0 then (db, .error "No billable items found")
  else if !invoiceInsertOk then (db, .error "Failed to create invoice")
  else
    let newInvoice : Invoice :=
      { id := newInvoiceId, admission_id := admissionId,
        invoice_number := invoiceNumber, total_amount := totalAmount,
        status := "pending" }
    let db1 := { db with invoices := db.invoices ++ [newInvoice] }
    if itemsInsertOk then
      let billItemsToInsert :=
        invoiceItems.map (fun i => { i with invoice_id := newInvoiceId })
      ({ db1 with bill_items := db1.bill_items ++ billItemsToInsert },
        .ok newInvoiceId)
    else
      ({ db1 with
          invoices := db1.invoices.filter (fun inv => !(inv.id == newInvoiceId)) },
        .error "Failed to create bill items")

end Billing

namespace Billing

/-- C10: comprehensive invoice creation is atomic at its interface — a
zero computed total fails before any invoice row is created, and when
the bill-item insert fails the just-created invoice is deleted before
the error is surfaced, so (given a fresh invoice id) the store is left
exactly as it was. -/
theorem c10_comprehensive_invoice_atomicity (db : DB) (admissionId : Nat)
    (items : List BillItem) (invoiceNumber : String) (newId : Nat) :
    (sumTotalPrice items = 0 →
      ∀ invoiceInsertOk itemsInsertOk : Bool,
        comprehensiveInvoiceRoute db admissionId items invoiceNumber newId
          invoiceInsertOk itemsInsertOk
          = (db, .error "No billable items found")) ∧
    (sumTotalPrice items ≠ 0 →
      (∀ inv ∈ db.invoices, inv.id ≠ newId) →
      comprehensiveInvoiceRoute db admissionId items invoiceNumber newId
        true false
        = (db, .error "Failed to create bill items")) := by
  constructor
  · intro h0 invoiceInsertOk itemsInsertOk
    unfold comprehensiveInvoiceRoute
    rw [if_pos h0]
  · intro hne hfresh
    unfold comprehensiveInvoiceRoute
    rw [if_neg hne]
    have hfilter :
        (db.invoices ++
            [({ id := newId, admission_id := admissionId,
                invoice_number := invoiceNumber,
                total_amount := sumTotalPrice items,
                status := "pending" } : Invoice)]).filter
            (fun inv => !(inv.id == newId))
          = db.invoices := by
      rw [List.filter_append]
      have h1 : db.invoices.filter (fun inv => !(inv.id == newId))
          = db.invoices :=
        List.filter_eq_self.mpr (fun inv hm => by simp [hfresh inv hm])
      have h2 :
          ([({ id := newId, admission_id := admissionId,
               invoice_number := invoiceNumber,
               total_amount := sumTotalPrice items,
               status := "pending" } : Invoice)]).filter
            (fun inv => !(inv.id == newId)) = [] := by simp
      rw [h1, h2, List.append_nil]
    simp only [Bool.not_true, Bool.false_eq_true, if_false]
    rw [hfilter]

/-- A store and an item for the `c10` witness. -/
def dbC10 : DB :=
  { invoices := [], bill_items := [], patient_medications := [],
    lab_reports := [] }

/-- A five-rupee custom item for the `c10` witness. -/
def itemC10 : BillItem :=
  { id := 0, invoice_id := 0, item_type := "custom", item_name := "Dressing",
    item_description := "", quantity := 1, unit_price := 5, total_price := 5,
    reference_id := none }

/-- Witness for `c10_comprehensive_invoice_atomicity` on an empty store. -/
theorem c10_comprehensive_invoice_atomicity_witness :
    comprehensiveInvoiceRoute dbC10 1 [] "INV-000001" 7 true true
      = (dbC10, .error "No billable items found") ∧
    comprehensiveInvoiceRoute dbC10 1 [itemC10] "INV-000001" 7 true false
      = (dbC10, .error "Failed to create bill items") :=
  ⟨(c10_comprehensive_invoice_atomicity dbC10 1 [] "INV-000001" 7).1 rfl
      true true,
    (c10_comprehensive_invoice_atomicity dbC10 1 [itemC10] "INV-000001" 7).2
      (by norm_num [sumTotalPrice, itemC10]) (by simp [dbC10])⟩

end Billing

namespace Billing

theorem itemsOf_setInvoiceTotal (db : DB) (invoiceId : Nat) (t : ℚ)
    (invId2 : Nat) :
    itemsOf (setInvoiceTotal db invoiceId t) invId2 = itemsOf db invId2 := rfl

theorem setInvoiceTotal_total (db : DB) (invoiceId : Nat) (t : ℚ) :
    ∀ inv ∈ (setInvoiceTotal db invoiceId t).invoices, inv.id = invoiceId →
      inv.total_amount = t := by
  intro inv hm hid
  simp only [setInvoiceTotal, List.mem_map] at hm
  obtain ⟨inv0, hm0, heq⟩ := hm
  by_cases h : inv0.id = invoiceId
  · rw [if_pos (by simpa using h)] at heq
    rw [← heq]
  · rw [if_neg (by simpa using h)] at heq
    rw [← heq] at hid
    exact absurd hid h

theorem medItemFromSource_spec (invoiceId : Nat) (m : Medication)
    (b : BillItem) (h : medItemFromSource invoiceId m = some b) :
    b.invoice_id = invoiceId ∧ b.item_type = "medication" ∧
    b.reference_id = some m.id := by
  simp only [medItemFromSource] at h
  rcases le_or_lt
      (m.price_per_unit.getD 0 * m.units_per_dose.getD 1
        * m.doses_administered.getD 0) 0 with hle | hlt
  · rw [if_pos hle] at h
    exact absurd h (by simp)
  · rw [if_neg (not_le.mpr hlt)] at h
    simp only [Option.some.injEq] at h
    subst h
    exact ⟨rfl, rfl, rfl⟩

theorem labItemFromSource_spec (invoiceId : Nat) (r : LabReport)
    (b : BillItem) (h : labItemFromSource invoiceId r = some b) :
    b.invoice_id = invoiceId ∧ b.item_type = "lab" ∧
    b.reference_id = some r.id := by
  simp only [labItemFromSource] at h
  rcases le_or_lt (r.price.getD 0) 0 with hle | hlt
  · rw [if_pos hle] at h
    exact absurd h (by simp)
  · rw [if_neg (not_le.mpr hlt)] at h
    simp only [Option.some.injEq] at h
    subst h
    exact ⟨rfl, rfl, rfl⟩

theorem newMedicationItems_invoice_id (db : DB) (invoiceId admissionId : Nat)
    (cur : List BillItem) :
    ∀ b ∈ newMedicationItems db invoiceId admissionId cur,
      b.invoice_id = invoiceId := by
  intro b hb
  simp only [newMedicationItems, List.mem_filterMap] at hb
  obtain ⟨m, -, hm⟩ := hb
  exact (medItemFromSource_spec invoiceId m b hm).1

theorem newLabReportItems_invoice_id (db : DB) (invoiceId admissionId : Nat)
    (cur : List BillItem) :
    ∀ b ∈ newLabReportItems db invoiceId admissionId cur,
      b.invoice_id = invoiceId := by
  intro b hb
  simp only [newLabReportItems, List.mem_filterMap] at hb
  obtain ⟨r, -, hr⟩ := hb
  exact (labItemFromSource_spec invoiceId r b hr).1

theorem itemsOf_append_new (db : DB) (invoiceId : Nat) (L : List BillItem)
    (hL : ∀ b ∈ L, b.invoice_id = invoiceId) :
    itemsOf { db with bill_items := db.bill_items ++ L } invoiceId
      = itemsOf db invoiceId ++ L := by
  unfold itemsOf
  simp only
  rw [List.filter_append]
  congr 1
  exact List.filter_eq_self.mpr (fun b hb => by simp [hL b hb])

theorem ensureMed_noop_case (db : DB) (invoiceId admissionId : Nat)
    (cur : List BillItem)
    (h : (newMedicationItems db invoiceId admissionId cur).isEmpty = true) :
    ensureMedicationBillItems db invoiceId admissionId cur true true
      = (db, cur) := by
  unfold ensureMedicationBillItems
  simp [h]

theorem ensureMed_insert_case (db : DB) (invoiceId admissionId : Nat)
    (cur : List BillItem)
    (h : (newMedicationItems db invoiceId admissionId cur).isEmpty = false) :
    ensureMedicationBillItems db invoiceId admissionId cur true true
      = (setInvoiceTotal
          { db with
            bill_items := db.bill_items
              ++ newMedicationItems db invoiceId admissionId cur }
          invoiceId
          (sumTotalPrice
            (cur ++ newMedicationItems db invoiceId admissionId cur)),
        cur ++ newMedicationItems db invoiceId admissionId cur) := by
  unfold ensureMedicationBillItems
  simp [h]

theorem ensureLab_noop_case (db : DB) (invoiceId admissionId : Nat)
    (cur : List BillItem)
    (h : (newLabReportItems db invoiceId admissionId cur).isEmpty = true) :
    ensureLabReportBillItems db invoiceId admissionId cur true true
      = (db, cur) := by
  unfold ensureLabReportBillItems
  simp [h]

theorem ensureLab_insert_case (db : DB) (invoiceId admissionId : Nat)
    (cur : List BillItem)
    (h : (newLabReportItems db invoiceId admissionId cur).isEmpty = false) :
    ensureLabReportBillItems db invoiceId admissionId cur true true
      = (setInvoiceTotal
          { db with
            bill_items := db.bill_items
              ++ newLabReportItems db invoiceId admissionId cur }
          invoiceId
          (sumTotalPrice
            (cur ++ newLabReportItems db invoiceId admissionId cur)),
        cur ++ newLabReportItems db invoiceId admissionId cur) := by
  unfold ensureLabReportBillItems
  simp [h]

end Billing

namespace Billing

/-- C2: after each ledger mutation — adding, updating or deleting a bill
item, or a medication/lab sync that inserts items — the affected
invoice's `total_amount` equals the sum of `total_price` over its full
current item set: every mutation path ends by recomputing the total from
the store's item list for that invoice. -/
theorem c2_total_amount_invariant :
    (∀ (db : DB) (invoiceId : Nat) (it nm ds : String) (q up : Option ℚ)
        (ref : Option Nat) (db' : DB),
      addBillItemRoute db invoiceId it nm ds q up ref = .ok db' →
      ∀ inv ∈ db'.invoices, inv.id = invoiceId →
        inv.total_amount = sumTotalPrice (itemsOf db' invoiceId)) ∧
    (∀ (db : DB) (itemId : Nat) (nm ds : Option String) (q up : Option ℚ)
        (db' : DB) (current : BillItem),
      db.bill_items.find? (fun i => i.id == itemId) = some current →
      updateBillItemRoute db itemId nm ds q up = .ok db' →
      ∀ inv ∈ db'.invoices, inv.id = current.invoice_id →
        inv.total_amount = sumTotalPrice (itemsOf db' current.invoice_id)) ∧
    (∀ (db : DB) (itemId : Nat) (db' : DB) (deleted : BillItem),
      db.bill_items.find? (fun i => i.id == itemId) = some deleted →
      deleteBillItemRoute db itemId = .ok db' →
      ∀ inv ∈ db'.invoices, inv.id = deleted.invoice_id →
        inv.total_amount = sumTotalPrice (itemsOf db' deleted.invoice_id)) ∧
    (∀ (db : DB) (invoiceId admissionId : Nat),
      (ensureMedicationBillItems db invoiceId admissionId
          (itemsOf db invoiceId) true true).2 ≠ itemsOf db invoiceId →
      ∀ inv ∈ (ensureMedicationBillItems db invoiceId admissionId
          (itemsOf db invoiceId) true true).1.invoices,
        inv.id = invoiceId →
        inv.total_amount = sumTotalPrice
          (itemsOf (ensureMedicationBillItems db invoiceId admissionId
            (itemsOf db invoiceId) true true).1 invoiceId)) ∧
    (∀ (db : DB) (invoiceId admissionId : Nat),
      (ensureLabReportBillItems db invoiceId admissionId
          (itemsOf db invoiceId) true true).2 ≠ itemsOf db invoiceId →
      ∀ inv ∈ (ensureLabReportBillItems db invoiceId admissionId
          (itemsOf db invoiceId) true true).1.invoices,
        inv.id = invoiceId →
        inv.total_amount = sumTotalPrice
          (itemsOf (ensureLabReportBillItems db invoiceId admissionId
            (itemsOf db invoiceId) true true).1 invoiceId)) := by
  refine ⟨?_, ?_, ?_, ?_, ?_⟩
  · intro db invoiceId it nm ds q up ref db' h
    unfold addBillItemRoute at h
    split at h
    · exact absurd h (by simp)
    · simp only [Except.ok.injEq] at h
      subst h
      intro inv hm hid
      exact setInvoiceTotal_total _ invoiceId _ inv hm hid
  · intro db itemId nm ds q up db' current hfind h
    unfold updateBillItemRoute at h
    rw [hfind] at h
    simp only [Except.ok.injEq] at h
    subst h
    intro inv hm hid
    exact setInvoiceTotal_total _ current.invoice_id _ inv hm hid
  · intro db itemId db' deleted hfind h
    unfold deleteBillItemRoute at h
    rw [hfind] at h
    simp only [Except.ok.injEq] at h
    subst h
    intro inv hm hid
    exact setInvoiceTotal_total _ deleted.invoice_id _ inv hm hid
  · intro db invoiceId admissionId hne
    rcases hemp : (newMedicationItems db invoiceId admissionId
        (itemsOf db invoiceId)).isEmpty with hfalse | htrue
    · have he := ensureMed_insert_case db invoiceId admissionId
        (itemsOf db invoiceId) hemp
      rw [he]
      intro inv hm hid
      have hL := newMedicationItems_invoice_id db invoiceId admissionId
        (itemsOf db invoiceId)
      have hOut : itemsOf
          (setInvoiceTotal
            { db with bill_items := (db.bill_items
                ++ newMedicationItems db invoiceId admissionId
                  (itemsOf db invoiceId)) }
            invoiceId
            (sumTotalPrice (itemsOf db invoiceId
              ++ newMedicationItems db invoiceId admissionId
                (itemsOf db invoiceId))))
          invoiceId
          = itemsOf db invoiceId
            ++ newMedicationItems db invoiceId admissionId
              (itemsOf db invoiceId) := by
        rw [itemsOf_setInvoiceTotal]
        exact itemsOf_append_new db invoiceId _ hL
      rw [hOut]
      exact setInvoiceTotal_total _ invoiceId _ inv hm hid
    · exact absurd (congrArg Prod.snd
        (ensureMed_noop_case db invoiceId admissionId
          (itemsOf db invoiceId) hemp)) (fun hc => hne hc)
  · intro db invoiceId admissionId hne
    rcases hemp : (newLabReportItems db invoiceId admissionId
        (itemsOf db invoiceId)).isEmpty with hfalse | htrue
    · have he := ensureLab_insert_case db invoiceId admissionId
        (itemsOf db invoiceId) hemp
      rw [he]
      intro inv hm hid
      have hL := newLabReportItems_invoice_id db invoiceId admissionId
        (itemsOf db invoiceId)
      have hOut : itemsOf
          (setInvoiceTotal
            { db with bill_items := (db.bill_items
                ++ newLabReportItems db invoiceId admissionId
                  (itemsOf db invoiceId)) }
            invoiceId
            (sumTotalPrice (itemsOf db invoiceId
              ++ newLabReportItems db invoiceId admissionId
                (itemsOf db invoiceId))))
          invoiceId
          = itemsOf db invoiceId
            ++ newLabReportItems db invoiceId admissionId
              (itemsOf db invoiceId) := by
        rw [itemsOf_setInvoiceTotal]
        exact itemsOf_append_new db invoiceId _ hL
      rw [hOut]
      exact setInvoiceTotal_total _ invoiceId _ inv hm hid
    · exact absurd (congrArg Prod.snd
        (ensureLab_noop_case db invoiceId admissionId
          (itemsOf db invoiceId) hemp)) (fun hc => hne hc)

end Billing

namespace Billing

/-- Invoice 1 before the `c2` witness mutation. -/
def invC2 : Invoice :=
  { id := 1, admission_id := 1, invoice_number := "INV-000001",
    total_amount := 0, status := "pending" }

/-- Invoice 1 after the `c2` witness mutation. -/
def invC2sync : Invoice :=
  { id := 1, admission_id := 1, invoice_number := "INV-000001",
    total_amount := 200, status := "pending" }

/-- The 2 × 100 custom item the `c2` witness inserts. -/
def itemC2 : BillItem :=
  { id := 0, invoice_id := 1, item_type := "custom", item_name := "X-ray",
    item_description := "", quantity := 2, unit_price := 100,
    total_price := 200, reference_id := none }

/-- Store before the `c2` witness mutation: one invoice, no items. -/
def dbC2 : DB :=
  { invoices := [invC2], bill_items := [], patient_medications := [],
    lab_reports := [] }

/-- Store after adding the 2 × 100 custom item to invoice 1 via
`addBillItemRoute`. -/
def dbC2sync : DB :=
  { invoices := [invC2sync], bill_items := [itemC2],
    patient_medications := [], lab_reports := [] }

/-- Witness for `c2_total_amount_invariant`: adding one item. -/
theorem c2_total_amount_invariant_witness :
    invC2sync.total_amount = sumTotalPrice (itemsOf dbC2sync 1) :=
  c2_total_amount_invariant.1 dbC2 1 "custom" "X-ray" "" (some 2) (some 100)
    none dbC2sync
    (by
      norm_num [addBillItemRoute, setInvoiceTotal, itemsOf, sumTotalPrice,
        dbC2, dbC2sync, invC2, invC2sync, itemC2]
      rintro (h | h | h) <;> simp at h)
    invC2sync
    (by simp [dbC2sync])
    rfl

end Billing

namespace Billing

theorem contains_iff_mem {l : List Nat} {a : Nat} :
    l.contains a = true ↔ a ∈ l := List.elem_iff

theorem medicationRefs_append (a b : List BillItem) :
    medicationRefs (a ++ b) = medicationRefs a ++ medicationRefs b := by
  simp [medicationRefs, List.filter_append, List.filterMap_append]

theorem labReportRefs_append (a b : List BillItem) :
    labReportRefs (a ++ b) = labReportRefs a ++ labReportRefs b := by
  simp [labReportRefs, List.filter_append, List.filterMap_append]

theorem mem_medicationRefs_of_item {items : List BillItem} {b : BillItem}
    (hb : b ∈ items) (ht : b.item_type = "medication") {r : Nat}
    (hr : b.reference_id = some r) : r ∈ medicationRefs items := by
  simp only [medicationRefs, List.mem_filterMap, List.mem_filter]
  exact ⟨b, ⟨hb, by simp [ht]⟩, hr⟩

theorem mem_labReportRefs_of_item {items : List BillItem} {b : BillItem}
    (hb : b ∈ items) (ht : b.item_type = "lab") {r : Nat}
    (hr : b.reference_id = some r) : r ∈ labReportRefs items := by
  simp only [labReportRefs, List.mem_filterMap, List.mem_filter]
  exact ⟨b, ⟨hb, by simp [ht]⟩, hr⟩

theorem mem_newMedicationItems {db : DB} {inv adm : Nat}
    {cur : List BillItem} {b : BillItem}
    (hb : b ∈ newMedicationItems db inv adm cur) :
    ∃ m : Medication, m ∈ db.patient_medications ∧
      (medicationRefs cur).contains m.id = false ∧
      medItemFromSource inv m = some b := by
  simp only [newMedicationItems, List.mem_filterMap, List.mem_filter] at hb
  obtain ⟨m, ⟨⟨hm1, -⟩, hm3⟩, hm4⟩ := hb
  exact ⟨m, hm1, by simpa using hm3, hm4⟩

theorem mem_newLabReportItems {db : DB} {inv adm : Nat}
    {cur : List BillItem} {b : BillItem}
    (hb : b ∈ newLabReportItems db inv adm cur) :
    ∃ r : LabReport, r ∈ db.lab_reports ∧
      (labReportRefs cur).contains r.id = false ∧
      labItemFromSource inv r = some b := by
  simp only [newLabReportItems, List.mem_filterMap, List.mem_filter] at hb
  obtain ⟨r, ⟨⟨hr1, -⟩, hr3⟩, hr4⟩ := hb
  exact ⟨r, hr1, by simpa using hr3, hr4⟩

end Billing

namespace Billing

theorem newMedicationItems_second_run (db db2 : DB) (inv adm : Nat)
    (cur : List BillItem)
    (hmeds : db2.patient_medications = db.patient_medications) :
    newMedicationItems db2 inv adm
      (cur ++ newMedicationItems db inv adm cur) = [] := by
  rw [newMedicationItems, List.filterMap_eq_nil_iff]
  intro m hm
  simp only [List.mem_filter, hmeds] at hm
  obtain ⟨⟨hm1, hadm⟩, hcon2⟩ := hm
  by_contra hnone
  obtain ⟨b, hb⟩ := Option.ne_none_iff_exists'.mp hnone
  have hspec := medItemFromSource_spec inv m b hb
  have hcon2' : ¬ m.id ∈ medicationRefs
      (cur ++ newMedicationItems db inv adm cur) := by
    intro hmem
    rw [contains_iff_mem.mpr hmem] at hcon2
    simp at hcon2
  apply hcon2'
  rw [medicationRefs_append]
  rcases hcc : (medicationRefs cur).contains m.id with _ | _
  · have hbmem : b ∈ newMedicationItems db inv adm cur := by
      simp only [newMedicationItems, List.mem_filterMap, List.mem_filter]
      exact ⟨m, ⟨⟨hm1, hadm⟩, by simp only [hcc, Bool.not_false]⟩, hb⟩
    exact List.mem_append_right _
      (mem_medicationRefs_of_item hbmem hspec.2.1 hspec.2.2)
  · exact List.mem_append_left _ (contains_iff_mem.mp hcc)

theorem newLabReportItems_second_run (db db2 : DB) (inv adm : Nat)
    (cur : List BillItem)
    (hlabs : db2.lab_reports = db.lab_reports) :
    newLabReportItems db2 inv adm
      (cur ++ newLabReportItems db inv adm cur) = [] := by
  rw [newLabReportItems, List.filterMap_eq_nil_iff]
  intro r hm
  simp only [List.mem_filter, hlabs] at hm
  obtain ⟨⟨hm1, hst⟩, hcon2⟩ := hm
  by_contra hnone
  obtain ⟨b, hb⟩ := Option.ne_none_iff_exists'.mp hnone
  have hspec := labItemFromSource_spec inv r b hb
  have hcon2' : ¬ r.id ∈ labReportRefs
      (cur ++ newLabReportItems db inv adm cur) := by
    intro hmem
    rw [contains_iff_mem.mpr hmem] at hcon2
    simp at hcon2
  apply hcon2'
  rw [labReportRefs_append]
  rcases hcc : (labReportRefs cur).contains r.id with _ | _
  · have hbmem : b ∈ newLabReportItems db inv adm cur := by
      simp only [newLabReportItems, List.mem_filterMap, List.mem_filter]
      exact ⟨r, ⟨⟨hm1, hst⟩, by simp only [hcc, Bool.not_false]⟩, hb⟩
    exact List.mem_append_right _
      (mem_labReportRefs_of_item hbmem hspec.2.1 hspec.2.2)
  · exact List.mem_append_left _ (contains_iff_mem.mp hcc)

theorem ensureMed_idem (db : DB) (inv adm : Nat) (cur : List BillItem) :
    ensureMedicationBillItems
        (ensureMedicationBillItems db inv adm cur true true).1
        inv adm
        (ensureMedicationBillItems db inv adm cur true true).2 true true
      = ensureMedicationBillItems db inv adm cur true true := by
  rcases hemp : (newMedicationItems db inv adm cur).isEmpty with _ | _
  · rw [ensureMed_insert_case db inv adm cur hemp]
    dsimp only
    exact ensureMed_noop_case _ inv adm _
      (by
        rw [newMedicationItems_second_run db
          (setInvoiceTotal
            { db with bill_items :=
                (db.bill_items ++ newMedicationItems db inv adm cur) }
            inv (sumTotalPrice (cur ++ newMedicationItems db inv adm cur)))
          inv adm cur rfl]
        rfl)
  · rw [ensureMed_noop_case db inv adm cur hemp]
    exact ensureMed_noop_case db inv adm cur hemp

theorem ensureLab_idem (db : DB) (inv adm : Nat) (cur : List BillItem) :
    ensureLabReportBillItems
        (ensureLabReportBillItems db inv adm cur true true).1
        inv adm
        (ensureLabReportBillItems db inv adm cur true true).2 true true
      = ensureLabReportBillItems db inv adm cur true true := by
  rcases hemp : (newLabReportItems db inv adm cur).isEmpty with _ | _
  · rw [ensureLab_insert_case db inv adm cur hemp]
    dsimp only
    exact ensureLab_noop_case _ inv adm _
      (by
        rw [newLabReportItems_second_run db
          (setInvoiceTotal
            { db with bill_items :=
                (db.bill_items ++ newLabReportItems db inv adm cur) }
            inv (sumTotalPrice (cur ++ newLabReportItems db inv adm cur)))
          inv adm cur rfl]
        rfl)
  · rw [ensureLab_noop_case db inv adm cur hemp]
    exact ensureLab_noop_case db inv adm cur hemp

end Billing

namespace Billing

/-- Two line items collide on the dedup contract when they share an
`item_type` and a non-null `reference_id`. -/
def samePair (a b : BillItem) : Prop :=
  a.item_type = b.item_type ∧ a.reference_id = b.reference_id ∧
  a.reference_id ≠ none

/-- The dedup invariant: at most one line item per distinct
`(item_type, reference_id)` pair; items without a `reference_id` are
exempt. -/
def DedupPairs (items : List BillItem) : Prop :=
  items.Pairwise (fun a b => ¬ samePair a b)

theorem newMedicationItems_pairwise_ref_ne (db : DB) (inv adm : Nat)
    (cur : List BillItem)
    (hnd : (db.patient_medications.map (fun m => m.id)).Nodup) :
    List.Pairwise (fun a b : BillItem => a.reference_id ≠ b.reference_id)
      (newMedicationItems db inv adm cur) := by
  have hp : List.Pairwise (fun m1 m2 : Medication => m1.id ≠ m2.id)
      db.patient_medications := List.pairwise_map.mp hnd
  refine List.Pairwise.filterMap (medItemFromSource inv) ?_
    ((hp.filter _).filter _)
  intro m1 m2 hne b1 hb1 b2 hb2
  have s1 := medItemFromSource_spec inv m1 b1 (Option.mem_def.mp hb1)
  have s2 := medItemFromSource_spec inv m2 b2 (Option.mem_def.mp hb2)
  rw [s1.2.2, s2.2.2]
  simp [hne]

theorem newLabReportItems_pairwise_ref_ne (db : DB) (inv adm : Nat)
    (cur : List BillItem)
    (hnd : (db.lab_reports.map (fun r => r.id)).Nodup) :
    List.Pairwise (fun a b : BillItem => a.reference_id ≠ b.reference_id)
      (newLabReportItems db inv adm cur) := by
  have hp : List.Pairwise (fun r1 r2 : LabReport => r1.id ≠ r2.id)
      db.lab_reports := List.pairwise_map.mp hnd
  refine List.Pairwise.filterMap (labItemFromSource inv) ?_
    ((hp.filter _).filter _)
  intro r1 r2 hne b1 hb1 b2 hb2
  have s1 := labItemFromSource_spec inv r1 b1 (Option.mem_def.mp hb1)
  have s2 := labItemFromSource_spec inv r2 b2 (Option.mem_def.mp hb2)
  rw [s1.2.2, s2.2.2]
  simp [hne]

theorem ensureMed_dedup (db : DB) (inv adm : Nat) (cur : List BillItem)
    (hcur : DedupPairs cur)
    (hnd : (db.patient_medications.map (fun m => m.id)).Nodup) :
    DedupPairs (ensureMedicationBillItems db inv adm cur true true).2 := by
  rcases hemp : (newMedicationItems db inv adm cur).isEmpty with _ | _
  · rw [ensureMed_insert_case db inv adm cur hemp]
    dsimp only
    refine List.pairwise_append.mpr ⟨hcur, ?_, ?_⟩
    · exact (newMedicationItems_pairwise_ref_ne db inv adm cur hnd).imp
        (fun h hsp => h hsp.2.1)
    · intro x hx y hy hsp
      obtain ⟨m, -, hcon, hsome⟩ := mem_newMedicationItems hy
      have hspec := medItemFromSource_spec inv m y hsome
      have hxref : x.reference_id = some m.id := by
        rw [hsp.2.1, hspec.2.2]
      have hxtype : x.item_type = "medication" := by
        rw [hsp.1, hspec.2.1]
      have hmem := mem_medicationRefs_of_item hx hxtype hxref
      rw [contains_iff_mem.mpr hmem] at hcon
      simp at hcon
  · rw [ensureMed_noop_case db inv adm cur hemp]
    exact hcur

theorem ensureLab_dedup (db : DB) (inv adm : Nat) (cur : List BillItem)
    (hcur : DedupPairs cur)
    (hnd : (db.lab_reports.map (fun r => r.id)).Nodup) :
    DedupPairs (ensureLabReportBillItems db inv adm cur true true).2 := by
  rcases hemp : (newLabReportItems db inv adm cur).isEmpty with _ | _
  · rw [ensureLab_insert_case db inv adm cur hemp]
    dsimp only
    refine List.pairwise_append.mpr ⟨hcur, ?_, ?_⟩
    · exact (newLabReportItems_pairwise_ref_ne db inv adm cur hnd).imp
        (fun h hsp => h hsp.2.1)
    · intro x hx y hy hsp
      obtain ⟨r, -, hcon, hsome⟩ := mem_newLabReportItems hy
      have hspec := labItemFromSource_spec inv r y hsome
      have hxref : x.reference_id = some r.id := by
        rw [hsp.2.1, hspec.2.2]
      have hxtype : x.item_type = "lab" := by
        rw [hsp.1, hspec.2.1]
      have hmem := mem_labReportRefs_of_item hx hxtype hxref
      rw [contains_iff_mem.mpr hmem] at hcon
      simp at hcon
  · rw [ensureLab_noop_case db inv adm cur hemp]
    exact hcur

end Billing

namespace Billing

/-- C3: medication and lab charge sync are idempotent and deduplicating —
a second sync call on the state produced by the first (with unchanged
source data) is a no-op on both the store and the item list, and a sync
run preserves the at-most-one-item-per-`(item_type, reference_id)`
invariant given distinct source record ids. -/
theorem c3_sync_idempotent_and_dedup :
    (∀ (db : DB) (invoiceId admissionId : Nat) (cur : List BillItem),
      ensureMedicationBillItems
          (ensureMedicationBillItems db invoiceId admissionId cur true true).1
          invoiceId admissionId
          (ensureMedicationBillItems db invoiceId admissionId cur true true).2
          true true
        = ensureMedicationBillItems db invoiceId admissionId cur true true) ∧
    (∀ (db : DB) (invoiceId admissionId : Nat) (cur : List BillItem),
      ensureLabReportBillItems
          (ensureLabReportBillItems db invoiceId admissionId cur true true).1
          invoiceId admissionId
          (ensureLabReportBillItems db invoiceId admissionId cur true true).2
          true true
        = ensureLabReportBillItems db invoiceId admissionId cur true true) ∧
    (∀ (db : DB) (invoiceId admissionId : Nat) (cur : List BillItem),
      DedupPairs cur →
      (db.patient_medications.map (fun m => m.id)).Nodup →
      DedupPairs
        (ensureMedicationBillItems db invoiceId admissionId cur true true).2) ∧
    (∀ (db : DB) (invoiceId admissionId : Nat) (cur : List BillItem),
      DedupPairs cur →
      (db.lab_reports.map (fun r => r.id)).Nodup →
      DedupPairs
        (ensureLabReportBillItems db invoiceId admissionId cur true true).2) :=
  ⟨ensureMed_idem, ensureLab_idem, ensureMed_dedup, ensureLab_dedup⟩

/-- A medication aggregate for the `c3` witness: 5 per unit, 1 unit per
dose, 4 doses administered. -/
def medC3 : Medication :=
  { id := 10, admission_id := 1, name := "Paracetamol",
    price_per_unit := some 5, units_per_dose := some 1,
    doses_administered := some 4 }

/-- A billed lab report for the `c3` witness. -/
def labC3 : LabReport :=
  { id := 20, admission_id := 1, billing_status := "billed",
    price := some 300, report_title := "CBC", labType := "blood",
    report_description := "" }

/-- Store for the `c3` witness: one invoice with no items yet, one
medication aggregate, one billed lab report. -/
def dbC3 : DB :=
  { invoices := [invC2], bill_items := [], patient_medications := [medC3],
    lab_reports := [labC3] }

/-- Witness for `c3_sync_idempotent_and_dedup` on a concrete store. -/
theorem c3_sync_idempotent_and_dedup_witness :
    DedupPairs (ensureMedicationBillItems dbC3 1 1 [] true true).2 ∧
    DedupPairs (ensureLabReportBillItems dbC3 1 1 [] true true).2 ∧
    ensureMedicationBillItems
        (ensureMedicationBillItems dbC3 1 1 [] true true).1 1 1
        (ensureMedicationBillItems dbC3 1 1 [] true true).2 true true
      = ensureMedicationBillItems dbC3 1 1 [] true true :=
  ⟨c3_sync_idempotent_and_dedup.2.2.1 dbC3 1 1 [] List.Pairwise.nil
      (by decide),
    c3_sync_idempotent_and_dedup.2.2.2 dbC3 1 1 [] List.Pairwise.nil
      (by decide),
    c3_sync_idempotent_and_dedup.1 dbC3 1 1 []⟩

end Billing

namespace Billing

/-- A room row as joined onto an admission. -/
structure Room where
  room_type : String
  rate_per_day : Option ℚ
deriving Repr, DecidableEq

/-- An admission row as the part_012 PDF route reads it; dates in
milliseconds since the epoch. -/
structure Admission where
  id : Nat
  admission_date : ℤ
  discharge_date : Option ℤ
  rooms : Option Room
deriving Repr, DecidableEq

/-- The hardcoded `roomRates` table of the part_012 PDF route; unknown
room types yield `undefined` (`none`). -/
def roomRatesLookup (roomType : String) : Option ℚ :=
  if roomType = "icu" then some 5000
  else if roomType = "private" then some 3000
  else if roomType = "general" then some 1500
  else if roomType = "semi-private" then some 2000
  else none

/-- Result of `calculateRoomCharges` in the part_012 PDF route. -/
structure RoomCharges where
  totalDays : ℤ
  roomType : String
  ratePerDay : ℚ
  totalCharges : ℚ
deriving Repr, DecidableEq

/-- `calculateRoomCharges` (part_012 `/:id/pdf`): days are the ceiling of
the stay length (discharge defaulting to now), the rate is the room's
rate or a hardcoded per-type default or the general default, and the
whole stay is charged at the current room's rate. -/
def calculateRoomCharges (admission : Admission) (now : ℤ) : RoomCharges :=
  let dischargeDate := admission.discharge_date.getD now
  let totalDays : ℤ :=
    ⌈((dischargeDate - admission.admission_date : ℤ) : ℚ) / 86400000⌉
  let roomType :=
    jsOrS (admission.rooms.map (fun r => r.room_type.toLower)) "general"
  let currentRoomRate :=
    jsOrQ (admission.rooms.bind (fun r => r.rate_per_day))
      (jsOrQ (roomRatesLookup roomType) 1500)
  { totalDays := totalDays
    roomType := jsOrS (admission.rooms.map (fun r => r.room_type)) "general"
    ratePerDay := currentRoomRate
    totalCharges := (totalDays : ℚ) * currentRoomRate }

/-- `item_name.toLowerCase().includes('room')`. -/
def hasRoomName (s : String) : Bool :=
  (s.toLower.splitOn "room").length > 1

/-- A stored bill item as passed to the PDF composer. -/
def toComposed (b : BillItem) : ComposedItem :=
  { item_name := b.item_name
    item_type := some b.item_type
    item_description := some b.item_description
    description := none
    quantity := some b.quantity
    unit_price := some b.unit_price
    total_price := some b.total_price
    amount := none
    reference_id := b.reference_id }

end Billing

namespace Billing

/-- The bill items the part_012 `/:id/pdf` route hands to the composer:
the invoice's stored rows, plus — when none of them mentions a room and
the estimated room charge is positive — a synthetic room-charge row
(which carries `amount`/`description` instead of
`total_price`/`item_description`). No ledger sync is performed. -/
def part012PdfRouteBillItems (db : DB) (inv : Invoice)
    (admission : Admission) (now : ℤ) : List ComposedItem :=
  let rc := calculateRoomCharges admission now
  let finalBillItems := (itemsOf db inv.id).map toComposed
  let hasRoomCharges := finalBillItems.any (fun i =>
    hasRoomName i.item_name ||
      (match i.description with
        | some d => hasRoomName d
        | none => false))
  if !hasRoomCharges ∧ rc.totalCharges > 0 then
    finalBillItems ++
      [{ item_name := "Room Charges - " ++ rc.roomType.capitalize ++ " Room"
         item_type := none
         item_description := none
         description := some (toString rc.totalDays ++ " days @ "
           ++ toString rc.ratePerDay ++ "/day")
         quantity := some (rc.totalDays : ℚ)
         unit_price := some rc.ratePerDay
         total_price := none
         amount := some rc.totalCharges
         reference_id := none }]
  else finalBillItems

/-- The bill items the billing-pdf route (`/:invoiceId/pdf`) hands to the
composer: exactly the invoice's stored rows; no ledger sync is
performed. -/
def billingPdfRouteBillItems (db : DB) (inv : Invoice) : List ComposedItem :=
  (itemsOf db inv.id).map toComposed

/-- The `/:id/details` route's item assembly: fetch the stored rows, run
the medication sync, then the lab sync, and respond with the synced
set. -/
def detailsRouteBillItems (db : DB) (inv : Invoice) : DB × List BillItem :=
  let r1 := ensureMedicationBillItems db inv.id inv.admission_id
    (itemsOf db inv.id) true true
  ensureLabReportBillItems r1.1 inv.id inv.admission_id r1.2 true true

/-- The billable charge of a medication aggregate. -/
def medCharge (m : Medication) : ℚ :=
  m.price_per_unit.getD 0 * m.units_per_dose.getD 1
    * m.doses_administered.getD 0

end Billing

namespace Billing

theorem isEmpty_false_of_ne_nil {α : Type} {l : List α} (h : l ≠ []) :
    l.isEmpty = false := by
  rcases hl : l.isEmpty with _ | _
  · rfl
  · exact absurd (List.isEmpty_iff.mp hl) h

theorem mem_of_mem_medicationRefs {items : List BillItem} {r : Nat}
    (h : r ∈ medicationRefs items) :
    ∃ i ∈ items, i.reference_id = some r := by
  simp only [medicationRefs, List.mem_filterMap, List.mem_filter] at h
  obtain ⟨i, ⟨hi, -⟩, hr⟩ := h
  exact ⟨i, hi, hr⟩

theorem ensureMed_items_extends (db : DB) (inv adm : Nat)
    (cur : List BillItem) :
    ∃ sfx, (ensureMedicationBillItems db inv adm cur true true).2
      = cur ++ sfx := by
  rcases hemp : (newMedicationItems db inv adm cur).isEmpty with _ | _
  · rw [ensureMed_insert_case db inv adm cur hemp]
    exact ⟨_, rfl⟩
  · rw [ensureMed_noop_case db inv adm cur hemp]
    exact ⟨[], (List.append_nil cur).symm⟩

theorem ensureLab_items_extends (db : DB) (inv adm : Nat)
    (cur : List BillItem) :
    ∃ sfx, (ensureLabReportBillItems db inv adm cur true true).2
      = cur ++ sfx := by
  rcases hemp : (newLabReportItems db inv adm cur).isEmpty with _ | _
  · rw [ensureLab_insert_case db inv adm cur hemp]
    exact ⟨_, rfl⟩
  · rw [ensureLab_noop_case db inv adm cur hemp]
    exact ⟨[], (List.append_nil cur).symm⟩

/-- The admission of the `c5` counterexample: same-day discharge, no
room record, so the PDF route's estimated room charge is zero. -/
def admC5 : Admission :=
  { id := 1, admission_date := 0, discharge_date := some 0, rooms := none }

/-- C5: the claim says every path that composes and returns an invoice
document performs the ledger sync before composing. Counterexample: on a
store whose invoice has no line items but whose admission has a billable
administered medication, both PDF-generation routes compose from the
empty stored item set (no sync), while the `/:id/details` route's sync
produces a non-empty item set — the PDF paths return the stale
ledger. -/
theorem c5_counterexample_pdf_routes_skip_sync :
    billingPdfRouteBillItems dbC3 invC2 = [] ∧
    part012PdfRouteBillItems dbC3 invC2 admC5 0 = [] ∧
    (detailsRouteBillItems dbC3 invC2).2 ≠ [] := by
  refine ⟨rfl, ?_, ?_⟩
  · norm_num [part012PdfRouteBillItems, calculateRoomCharges, itemsOf, dbC3,
      invC2, admC5, jsOrS, jsOrQ, roomRatesLookup]
  · have hne : medItemFromSource 1 medC3 ≠ none := by
      simp only [medItemFromSource, medC3]
      norm_num
      exact Option.some_ne_none _
    obtain ⟨b, hb⟩ := Option.ne_none_iff_exists'.mp hne
    have hlist : newMedicationItems dbC3 1 1 []
        = List.filterMap (medItemFromSource 1) [medC3] := rfl
    have hbmem : b ∈ newMedicationItems dbC3 1 1 [] := by
      rw [hlist]
      exact List.mem_filterMap.mpr ⟨medC3, List.mem_cons_self _ _, hb⟩
    have hnn : newMedicationItems dbC3 1 1 [] ≠ [] :=
      List.ne_nil_of_mem hbmem
    have hemp : (newMedicationItems dbC3 1 1 []).isEmpty = false :=
      isEmpty_false_of_ne_nil hnn
    have hd : detailsRouteBillItems dbC3 invC2
        = ensureLabReportBillItems
            (ensureMedicationBillItems dbC3 1 1 [] true true).1 1 1
            (ensureMedicationBillItems dbC3 1 1 [] true true).2 true true :=
      rfl
    rw [hd]
    obtain ⟨sfx, hsfx⟩ := ensureLab_items_extends
      (ensureMedicationBillItems dbC3 1 1 [] true true).1 1 1
      (ensureMedicationBillItems dbC3 1 1 [] true true).2
    rw [hsfx]
    have h2 : (ensureMedicationBillItems dbC3 1 1 [] true true).2
        = [] ++ newMedicationItems dbC3 1 1 [] := by
      rw [ensureMed_insert_case dbC3 1 1 [] hemp]
    intro hc
    rw [h2] at hc
    simp at hc
    exact hnn hc.1

end Billing

namespace Billing

/-- C5 (amended): only the `/:id/details` route performs the ledger sync
before responding — after it, every medication aggregate of the
invoice's admission with a positive charge is represented by a line item
referencing it — while the PDF-generation routes compose the document
from the invoice's stored rows as they are, without syncing. -/
theorem c5_sync_before_compose_amended :
    (∀ (db : DB) (inv : Invoice), ∀ m ∈ db.patient_medications,
      m.admission_id = inv.admission_id → 0 < medCharge m →
      ∃ item ∈ (detailsRouteBillItems db inv).2,
        item.reference_id = some m.id) ∧
    (∀ (db : DB) (inv : Invoice),
      billingPdfRouteBillItems db inv = (itemsOf db inv.id).map toComposed) := by
  constructor
  · intro db inv m hm hadm hpos
    obtain ⟨sfx2, hsfx2⟩ := ensureLab_items_extends
      (ensureMedicationBillItems db inv.id inv.admission_id
        (itemsOf db inv.id) true true).1 inv.id inv.admission_id
      (ensureMedicationBillItems db inv.id inv.admission_id
        (itemsOf db inv.id) true true).2
    suffices h : ∃ item ∈ (ensureMedicationBillItems db inv.id
        inv.admission_id (itemsOf db inv.id) true true).2,
        item.reference_id = some m.id by
      obtain ⟨item, hitem, href⟩ := h
      refine ⟨item, ?_, href⟩
      show item ∈ (ensureLabReportBillItems
        (ensureMedicationBillItems db inv.id inv.admission_id
          (itemsOf db inv.id) true true).1 inv.id inv.admission_id
        (ensureMedicationBillItems db inv.id inv.admission_id
          (itemsOf db inv.id) true true).2 true true).2
      rw [hsfx2]
      exact List.mem_append_left _ hitem
    have hnone : medItemFromSource inv.id m ≠ none := by
      have hpos2 : 0 < m.price_per_unit.getD 0 * m.units_per_dose.getD 1
          * m.doses_administered.getD 0 := hpos
      simp only [medItemFromSource]
      rw [if_neg (not_le.mpr hpos2)]
      exact Option.some_ne_none _
    obtain ⟨b, hb⟩ := Option.ne_none_iff_exists'.mp hnone
    have hspec := medItemFromSource_spec inv.id m b hb
    rcases hcc : (medicationRefs (itemsOf db inv.id)).contains m.id with _ | _
    · have hbmem : b ∈ newMedicationItems db inv.id inv.admission_id
          (itemsOf db inv.id) := by
        simp only [newMedicationItems, List.mem_filterMap, List.mem_filter]
        exact ⟨m, ⟨⟨hm, by simp [hadm]⟩, by simp only [hcc, Bool.not_false]⟩,
          hb⟩
      have hemp : (newMedicationItems db inv.id inv.admission_id
          (itemsOf db inv.id)).isEmpty = false :=
        isEmpty_false_of_ne_nil (List.ne_nil_of_mem hbmem)
      rw [ensureMed_insert_case db inv.id inv.admission_id
        (itemsOf db inv.id) hemp]
      exact ⟨b, List.mem_append_right _ hbmem, hspec.2.2⟩
    · obtain ⟨i, hi, hiref⟩ :=
        mem_of_mem_medicationRefs (contains_iff_mem.mp hcc)
      obtain ⟨sfx1, hsfx1⟩ := ensureMed_items_extends db inv.id
        inv.admission_id (itemsOf db inv.id)
      rw [hsfx1]
      exact ⟨i, List.mem_append_left _ hi, hiref⟩
  · intro db inv
    rfl

/-- Witness for `c5_sync_before_compose_amended` on the concrete store
of the counterexample. -/
theorem c5_sync_before_compose_amended_witness :
    (∃ item ∈ (detailsRouteBillItems dbC3 invC2).2,
      item.reference_id = some medC3.id) ∧
    billingPdfRouteBillItems dbC3 invC2
      = (itemsOf dbC3 invC2.id).map toComposed :=
  ⟨c5_sync_before_compose_amended.1 dbC3 invC2 medC3 (by simp [dbC3]) rfl
      (by norm_num [medCharge, medC3]),
    c5_sync_before_compose_amended.2 dbC3 invC2⟩

end Billing
